import Mathlib

/-!
Shallow embedding of the UpCloud OpenTelemetry receiver's
acquisition-and-normalization pipeline (package `upcloudreceiver`),
together with proofs about its target resolution, discovery pagination,
payload normalization, descriptor derivation, allow-list filtering and
scrape-cycle error aggregation.

Machine `float64` values are modelled as exact fractions (`Frac`);
`strconv.ParseFloat` is modelled on the decimal literal grammar
(sign, digits, optional fraction, optional exponent), ignoring IEEE
range overflow, hexadecimal literals, underscores and inf/nan forms.
`time.Time` and the `time` library are abstracted as an explicit
`TimeLib` parameter: the repository code only parses, formats,
compares (`After`), zero-tests and asks for the current time, so those
operations are the interface.
-/

namespace Upcloud

/-- Models Go `unicode.IsSpace` on the Latin-1 range (the white-space
characters relevant to the repository's trimmed strings). -/
def goIsSpace (c : Char) : Bool :=
  c == ' ' || c == '\t' || c == '\n' || c == '\x0b' || c == '\x0c' ||
    c == '\r' || c == '\u0085' || c == '\u00A0'

/-- Models Go `strings.TrimSpace`: drop white space from both ends. -/
def trimSpace (s : String) : String :=
  String.mk (((s.data.dropWhile goIsSpace).reverse.dropWhile goIsSpace).reverse)

/-- Digit run to natural number, used by the `ParseFloat` model. -/
def digitsToNat (ds : List Char) : Nat :=
  ds.foldl (fun acc c => acc * 10 + (c.toNat - '0'.toNat)) 0

/-- An exact rational `num / den` kept as an unreduced fraction
(denominators here are always positive powers of ten, possibly times
100).  This is the model of Go `float64` values: exact arithmetic in
place of IEEE rounding. -/
structure Frac where
  num : ℤ
  den : ℕ
deriving DecidableEq

/-- The rational value of a fraction. -/
def Frac.toRat (f : Frac) : ℚ :=
  (f.num : ℚ) / (f.den : ℚ)

/-- Multiply a fraction by `10 ^ e` exactly. -/
def Frac.mulPow10 (f : Frac) (e : ℤ) : Frac :=
  if 0 ≤ e then ⟨f.num * 10 ^ e.toNat, f.den⟩ else ⟨f.num, f.den * 10 ^ (-e).toNat⟩

/-- Models Go `strconv.ParseFloat` (success and value) on the decimal
literal grammar `[+-]? digits [. digits] [(e|E) [+-] digits]` (at least
one mantissa digit required), returning the exact rational value.
IEEE rounding/overflow, hex floats, underscores and inf/nan are outside
the model. -/
def parseFloat (s : String) : Option Frac :=
  let cs := s.data
  let signAndRest : ℤ × List Char :=
    match cs with
    | '+' :: t => (1, t)
    | '-' :: t => (-1, t)
    | _ => (1, cs)
  let sign := signAndRest.1
  let cs := signAndRest.2
  let ipart := cs.takeWhile Char.isDigit
  let cs := cs.dropWhile Char.isDigit
  let fracAndRest : List Char × List Char :=
    match cs with
    | '.' :: t => (t.takeWhile Char.isDigit, t.dropWhile Char.isDigit)
    | _ => ([], cs)
  let fpart := fracAndRest.1
  let cs := fracAndRest.2
  if ipart.length + fpart.length = 0 then none
  else
    let mant : Frac := ⟨sign * (digitsToNat (ipart ++ fpart) : ℤ), 10 ^ fpart.length⟩
    match cs with
    | [] => some mant
    | e :: t =>
      if e == 'e' || e == 'E' then
        let esignAndRest : ℤ × List Char :=
          match t with
          | '+' :: t2 => (1, t2)
          | '-' :: t2 => (-1, t2)
          | _ => (1, t)
        let edigits := esignAndRest.2.takeWhile Char.isDigit
        let erest := esignAndRest.2.dropWhile Char.isDigit
        if edigits.length = 0 ∨ erest ≠ [] then none
        else some (mant.mulPow10 (esignAndRest.1 * (digitsToNat edigits : ℤ)))
      else none

/-- A decoded JSON value as the Go code sees it after
`json.Decoder.UseNumber` (`any` holding `map[string]any`, `[]any`,
`string`, `json.Number`, `bool`, `nil`), extended with `float` for the
`float64` values the snapshot converter itself places into rows. -/
inductive GoValue where
  | null : GoValue
  | boolean : Bool → GoValue
  | str : String → GoValue
  | num : String → GoValue
  | float : Frac → GoValue
  | arr : List GoValue → GoValue
  | obj : List (String × GoValue) → GoValue

/-- Models the repository's `toFloat64`.  On decoded payload trees only
the `json.Number` and `string` cases can carry numeric text (both go
through `ParseFloat`); `float` covers the converter-produced `float64`
row values.  All other dynamic types are rejected. -/
def toFloat64 : GoValue → Option Frac
  | GoValue.num s => parseFloat s
  | GoValue.str s => parseFloat s
  | GoValue.float q => some q
  | _ => none

/-- Models the repository's `dedupe` (seen-set accumulation, first
occurrence kept, order preserved). -/
def dedupeAux (seen : List String) : List String → List String
  | [] => []
  | v :: rest =>
    if v ∈ seen then dedupeAux seen rest
    else v :: dedupeAux (v :: seen) rest

/-- `dedupe` from the repository: drop later duplicates. -/
def dedupe (values : List String) : List String :=
  dedupeAux [] values

/-- Executable lexicographic `≤` on character lists (code-point order);
Go compares strings bytewise, which on UTF-8 agrees with code-point
lexicographic order. -/
def charListLeb : List Char → List Char → Bool
  | [], _ => true
  | _ :: _, [] => false
  | a :: as, b :: bs => if a = b then charListLeb as bs else decide (a < b)

/-- Executable string `≤` used to model Go `sort.Strings`. -/
def strLeb (a b : String) : Bool :=
  charListLeb a.data b.data

/-- Models Go `sort.Strings` (ascending bytewise order; on UTF-8
strings this is code-point lexicographic order, Mathlib's `≤`). -/
def sortStrings (l : List String) : List String :=
  List.insertionSort (fun a b => strLeb a b = true) l

/-- The repository's `applyExcludeUUIDs`: dedupe the targets, drop the
ones equal to a whitespace-trimmed non-blank exclusion entry, sort. -/
def applyExcludeUUIDs (targets exclude : List String) : List String :=
  let targets := dedupe targets
  if targets.isEmpty then targets
  else
    let excluded := (exclude.map trimSpace).filter (fun t => t ≠ "")
    let filtered := targets.filter (fun id => !(excluded.contains id))
    sortStrings filtered

/-- Association-list read, modelling a Go map lookup. -/
def assocGet {α : Type} : List (String × α) → String → Option α
  | [], _ => none
  | (k, v) :: rest, key => if k = key then some v else assocGet rest key

/-- Association-list write, modelling a Go map store (update in place,
else append). -/
def assocSet {α : Type} : List (String × α) → String → α → List (String × α)
  | [], key, value => [(key, value)]
  | (k, v) :: rest, key, value =>
    if k = key then (key, value) :: rest else (k, v) :: assocSet rest key value

/-- `resourceTypeManagedDatabase` from the repository. -/
def resourceTypeManagedDatabase : String := "managed_database"

/-- `resourceTypeManagedLoadBalancer` from the repository. -/
def resourceTypeManagedLoadBalancer : String := "managed_load_balancer"

/-- `instrumentationScopeName` from the repository. -/
def instrumentationScopeName : String :=
  "github.com/upcloud-community/opentelemetry-upcloud-receiver/receiver/upcloudreceiver"

/-- The repository's `metricDescriptor`. -/
structure metricDescriptor where
  Name : String
  Unit : String
  PercentToRatio : Bool
deriving DecidableEq

/-- `metricDescriptor.normalizeValue`: percentage metrics are divided by
exactly 100, everything else passes through. -/
def metricDescriptor.normalizeValue (d : metricDescriptor) (value : Frac) : Frac :=
  if d.PercentToRatio then ⟨value.num, value.den * 100⟩ else value

/-- The repository's static `managedDatabaseMetricDescriptors` table. -/
def managedDatabaseMetricDescriptors : List (String × metricDescriptor) :=
  [ ("cpu_usage", ⟨"upcloud.managed_database.cpu.utilization", "1", true⟩),
    ("mem_usage", ⟨"upcloud.managed_database.memory.utilization", "1", true⟩),
    ("disk_usage", ⟨"upcloud.managed_database.disk.utilization", "1", true⟩),
    ("load_average", ⟨"upcloud.managed_database.system.load_average", "1", false⟩),
    ("diskio_reads", ⟨"upcloud.managed_database.disk.io.read_operations", "{operation}/s", false⟩),
    ("diskio_writes", ⟨"upcloud.managed_database.disk.io.write_operations", "{operation}/s", false⟩),
    ("net_receive", ⟨"upcloud.managed_database.network.receive", "By/s", false⟩),
    ("net_send", ⟨"upcloud.managed_database.network.transmit", "By/s", false⟩) ]

/-- The repository's static `managedLoadBalancerMetricDescriptors` table. -/
def managedLoadBalancerMetricDescriptors : List (String × metricDescriptor) :=
  [ ("cpu_usage", ⟨"upcloud.managed_load_balancer.cpu.utilization", "1", true⟩),
    ("mem_usage", ⟨"upcloud.managed_load_balancer.memory.utilization", "1", true⟩) ]

/-- Is `c` in `[a-z0-9]` (the characters the sanitizer keeps)? -/
def isSanitaryChar (c : Char) : Bool :=
  ('a' ≤ c && c ≤ 'z') || ('0' ≤ c && c ≤ '9')

/-- Models `invalidMetricChars.ReplaceAllString(s, ".")` for the regex
`[^a-z0-9]+`: every maximal run of characters outside `[a-z0-9]`
becomes a single dot. -/
def collapseInvalidRuns (prevInvalid : Bool) : List Char → List Char
  | [] => []
  | c :: rest =>
    if isSanitaryChar c then c :: collapseInvalidRuns false rest
    else if prevInvalid then collapseInvalidRuns true rest
    else '.' :: collapseInvalidRuns true rest

/-- Models `strings.ReplaceAll(s, "..", ".")` (left-to-right,
non-overlapping). -/
def replaceDoubleDots : List Char → List Char
  | '.' :: '.' :: rest => '.' :: replaceDoubleDots rest
  | c :: rest => c :: replaceDoubleDots rest
  | [] => []

/-- The repository's `sanitizeMetricPath` (lower-case is modelled with
`Char.toLower`, which agrees with Go `strings.ToLower` on ASCII). -/
def sanitizeMetricPath (metricKey : String) : String :=
  let normalized := metricKey.data.map Char.toLower
  let normalized := collapseInvalidRuns false normalized
  let normalized := ((normalized.dropWhile (· = '.')).reverse.dropWhile (· = '.')).reverse
  let normalized := replaceDoubleDots normalized
  if normalized = [] then "unknown" else String.mk normalized

/-- Models Go `strings.HasSuffix`. -/
def strHasSuffix (s suffix : String) : Bool :=
  suffix.data.isSuffixOf s.data

/-- Models Go `strings.TrimSuffix`. -/
def strTrimSuffix (s suffix : String) : String :=
  if strHasSuffix s suffix then String.mk (s.data.take (s.data.length - suffix.data.length))
  else s

/-- The repository's `descriptorForMetric`: trim the key, try the
per-resource-type static table, then the `_usage` fallback, then the
dimensionless fallback. -/
def descriptorForMetric (resourceType metricKey : String) : metricDescriptor :=
  let metricKey := trimSpace metricKey
  match (if resourceType = resourceTypeManagedDatabase then
      assocGet managedDatabaseMetricDescriptors metricKey else none) with
  | some d => d
  | none =>
    match (if resourceType = resourceTypeManagedLoadBalancer then
        assocGet managedLoadBalancerMetricDescriptors metricKey else none) with
    | some d => d
    | none =>
      if strHasSuffix metricKey "_usage" then
        { Name := "upcloud." ++ resourceType ++ "." ++
            sanitizeMetricPath (strTrimSuffix metricKey "_usage") ++ ".utilization",
          Unit := "1",
          PercentToRatio := true }
      else
        { Name := "upcloud." ++ resourceType ++ "." ++ sanitizeMetricPath metricKey,
          Unit := "1",
          PercentToRatio := false }

/-- `MetricsColumn` from the repository. -/
structure MetricsColumn where
  label : String
  type : String

/-- `MetricsData` from the repository (`rows` hold decoded JSON values). -/
structure MetricsData where
  cols : List MetricsColumn
  rows : List (List GoValue)

/-- `MetricsHints` from the repository. -/
structure MetricsHints where
  title : String

/-- `MetricsItem` from the repository. -/
structure MetricsItem where
  data : MetricsData
  hints : MetricsHints

/-- `MetricsResponse` from the repository (`map[string]MetricsItem`,
modelled as an association list). -/
abbrev MetricsResponse := List (String × MetricsItem)

/-- Abstraction of the pieces of Go's `time` library the repository
uses: parsing the two RFC3339 layouts, formatting, the current time,
the zero value / zero test, and `After`. -/
structure TimeLib where
  T : Type
  parse3339 : String → Option T
  parse3339Nano : String → Option T
  format : T → String
  now : T
  zero : T
  isZero : T → Bool
  after : T → T → Bool

/-- The repository's `nowTimestamp`: the zero time is replaced by the
current time (`.UTC()` is folded into the abstract time values). -/
def TimeLib.nowTimestamp (lib : TimeLib) (t : lib.T) : lib.T :=
  if lib.isZero t then lib.now else t

/-- The repository's `extractTime`: a string parsed with the RFC3339
layout, everything else falling back to the current time. -/
def extractTime (lib : TimeLib) (v : GoValue) : lib.T :=
  match v with
  | GoValue.str s =>
    match lib.parse3339 s with
    | some t => t
    | none => lib.nowTimestamp lib.zero
  | _ => lib.nowTimestamp lib.zero

/-- The repository's `toAllowlist`: trim each entry, drop blanks; a
`nil` and an empty map are both modelled as `[]` (only the length is
ever observed).  Duplicate-key insertion into the map is modelled with
`dedupe`. -/
def toAllowlist (values : List String) : List String :=
  if values.length = 0 then []
  else dedupe ((values.map trimSpace).filter (fun t => t ≠ ""))

/-- One emitted gauge data point (timestamp, normalized value, and the
attributes the repository attaches). -/
structure DataPoint (T : Type) where
  timestamp : T
  value : Frac
  metricName : String
  series : String
  percentToRatioAttr : Bool

/-- One emitted metric (`pmetric.Metric` with a gauge). -/
structure MetricRecord (T : Type) where
  name : String
  description : String
  unit : String
  points : List (DataPoint T)

/-- The repository's `appendMetric` as a pure function: `none` when the
entry is rejected before a metric is appended, otherwise the appended
metric.  The Go loop `for idx := 1; idx < len(cols) && idx < len(row)`
is embedded as a `filterMap` over `cols.tail.zip row.tail`. -/
def appendMetric (lib : TimeLib) (metricKey : String) (metric : MetricsItem)
    (resourceType : String) : Option (MetricRecord lib.T) :=
  if metric.data.cols.length < 2 ∨ metric.data.rows.length = 0 then none
  else
    let row := metric.data.rows.getLastD []
    if row.length < 2 then none
    else
      let timestamp := extractTime lib (row.headD GoValue.null)
      let descriptor := descriptorForMetric resourceType metricKey
      some
        { name := descriptor.Name
          description := metric.hints.title
          unit := descriptor.Unit
          points := (metric.data.cols.tail.zip row.tail).filterMap (fun cv =>
            (toFloat64 cv.2).map (fun value =>
              { timestamp := timestamp
                value := descriptor.normalizeValue value
                metricName := metricKey
                series := cv.1.label
                percentToRatioAttr := descriptor.PercentToRatio })) }

/-- One `ResourceMetrics` entry: the fixed resource attributes plus the
metrics of one target. -/
structure ResourceRecord (T : Type) where
  provider : String
  resourceType : String
  resourceUUID : String
  scopeName : String
  metrics : List (MetricRecord T)

/-- The repository's `appendMetricsPayload`: one resource record per
call; keys failing a configured (non-empty-map) allow-list are skipped,
the remaining entries go through `appendMetric`. -/
def appendMetricsPayload (lib : TimeLib) (payload : MetricsResponse)
    (resourceType resourceUUID : String) (allowlist : List String) :
    ResourceRecord lib.T :=
  let allowed := toAllowlist allowlist
  { provider := "upcloud"
    resourceType := resourceType
    resourceUUID := resourceUUID
    scopeName := instrumentationScopeName
    metrics := payload.filterMap (fun kv =>
      if allowed.length > 0 ∧ ¬ allowed.contains kv.1 then none
      else appendMetric lib kv.1 kv.2 resourceType) }

/-- `ManagedDatabaseConfig`: the fields read by the scraping pipeline
(`enabled`, `uuids`, `exclude_uuids`, `auto_discover`, `discovery_path`,
`discovery_limit`, `period`, `metrics`). -/
structure ManagedDatabaseConfig where
  enabled : Bool
  uuids : List String
  excludeUUIDs : List String
  autoDiscover : Bool
  discoveryPath : String
  discoveryLimit : Int
  period : String
  metrics : List String

/-- `ManagedLoadBalancerConfig`: like the database block plus the
metrics path template. -/
structure ManagedLoadBalancerConfig where
  enabled : Bool
  uuids : List String
  excludeUUIDs : List String
  autoDiscover : Bool
  discoveryPath : String
  period : String
  metrics : List String
  metricsPathTemplate : String

/-- `APIConfig` (endpoint/auth/timeout settings; `configopaque.String`
fields are plain strings here). -/
structure APIConfig where
  endpoint : String
  token : String
  tokenFile : String
  username : String
  password : String
  passwordFile : String
  timeout : Int

/-- The receiver `Config`. -/
structure Config where
  collectionInterval : Int
  initialDelay : Int
  api : APIConfig
  managedDatabases : ManagedDatabaseConfig
  managedLoadBalancers : ManagedLoadBalancerConfig

/-- The repository's `APIConfig.Validate`; `some msg` is the returned
error, `none` is success. -/
def APIConfig.Validate (cfg : APIConfig) : Option String :=
  let hasToken := trimSpace cfg.token ≠ ""
  let hasTokenFile := trimSpace cfg.tokenFile ≠ ""
  let hasBearer := hasToken ∨ hasTokenFile
  let hasUsername := trimSpace cfg.username ≠ ""
  let hasPassword := trimSpace cfg.password ≠ ""
  let hasPasswordFile := trimSpace cfg.passwordFile ≠ ""
  let hasBasic := hasUsername ∨ hasPassword ∨ hasPasswordFile
  if hasToken ∧ hasTokenFile then
    some "api.token and api.token_file are mutually exclusive"
  else if hasPassword ∧ hasPasswordFile then
    some "api.password and api.password_file are mutually exclusive"
  else if hasBearer ∧ hasBasic then
    some "bearer auth (token/token_file) and basic auth (username/password) are mutually exclusive"
  else if ¬ hasBearer ∧ ¬ hasBasic then
    some "api authentication is required: set token/token_file or username+password"
  else if hasBasic ∧ ¬ hasUsername then
    some "api.username is required when using basic auth"
  else if hasBasic ∧ ¬ hasPassword ∧ ¬ hasPasswordFile then
    some "api.password or api.password_file is required when using basic auth"
  else none

/-- The `Client` interface of the repository (contexts dropped; errors
are strings). -/
structure Client where
  listManagedDatabaseServiceUUIDs : String → Int → Except String (List String)
  listManagedLoadBalancerUUIDs : String → Except String (List String)
  getManagedDatabaseMetrics : String → String → Except String MetricsResponse
  getManagedLoadBalancerMetrics : String → String → Except String MetricsResponse

/-- The repository's `resolveManagedDatabaseUUIDs`: first component is
the returned target list, second the returned error (if any).  On a
discovery error the explicit list still goes through
`applyExcludeUUIDs`. -/
def resolveManagedDatabaseUUIDs (client : Client) (cfg : ManagedDatabaseConfig) :
    List String × Option String :=
  if cfg.autoDiscover then
    match client.listManagedDatabaseServiceUUIDs cfg.discoveryPath cfg.discoveryLimit with
    | Except.error e =>
      (applyExcludeUUIDs cfg.uuids cfg.excludeUUIDs, some ("discover managed databases: " ++ e))
    | Except.ok discovered =>
      (applyExcludeUUIDs (cfg.uuids ++ discovered) cfg.excludeUUIDs, none)
  else (applyExcludeUUIDs cfg.uuids cfg.excludeUUIDs, none)

/-- The repository's `resolveManagedLoadBalancerUUIDs`. -/
def resolveManagedLoadBalancerUUIDs (client : Client) (cfg : ManagedLoadBalancerConfig) :
    List String × Option String :=
  if cfg.autoDiscover then
    match client.listManagedLoadBalancerUUIDs cfg.discoveryPath with
    | Except.error e =>
      (applyExcludeUUIDs cfg.uuids cfg.excludeUUIDs,
        some ("discover managed load balancers: " ++ e))
    | Except.ok discovered =>
      (applyExcludeUUIDs (cfg.uuids ++ discovered) cfg.excludeUUIDs, none)
  else (applyExcludeUUIDs cfg.uuids cfg.excludeUUIDs, none)

/-- One resource type's target loop inside `scrapeMetrics`: fetch each
target, on success append its resource record, on failure append the
formatted per-target error. -/
def scrapeTargets (lib : TimeLib) (fetch : String → Except String MetricsResponse)
    (errPrefix resourceType : String) (allowlist : List String) :
    List String → List (ResourceRecord lib.T) × List String → List (ResourceRecord lib.T) × List String
  | [], acc => acc
  | uuid :: rest, acc =>
    match fetch uuid with
    | Except.error e =>
      scrapeTargets lib fetch errPrefix resourceType allowlist rest
        (acc.1, acc.2 ++ [errPrefix ++ " " ++ uuid ++ ": " ++ e])
    | Except.ok resp =>
      scrapeTargets lib fetch errPrefix resourceType allowlist rest
        (acc.1 ++ [appendMetricsPayload lib resp resourceType uuid allowlist], acc.2)

/-- The repository's `scrapeMetrics`: first component are the appended
resource records (in order), second the collected errors that
`errors.Join` would combine (empty list = nil error). -/
def scrapeMetrics (lib : TimeLib) (client : Client) (cfg : Config) :
    List (ResourceRecord lib.T) × List String :=
  let dbPart :=
    if cfg.managedDatabases.enabled then
      let resolved := resolveManagedDatabaseUUIDs client cfg.managedDatabases
      let errs0 := match resolved.2 with
        | some e => [e]
        | none => []
      scrapeTargets lib
        (fun uuid => client.getManagedDatabaseMetrics uuid cfg.managedDatabases.period)
        "managed database" resourceTypeManagedDatabase cfg.managedDatabases.metrics
        resolved.1 ([], errs0)
    else ([], [])
  let lbPart :=
    if cfg.managedLoadBalancers.enabled then
      let resolved := resolveManagedLoadBalancerUUIDs client cfg.managedLoadBalancers
      let errs0 := match resolved.2 with
        | some e => [e]
        | none => []
      scrapeTargets lib
        (fun uuid => client.getManagedLoadBalancerMetrics uuid cfg.managedLoadBalancers.period)
        "managed load balancer" resourceTypeManagedLoadBalancer cfg.managedLoadBalancers.metrics
        resolved.1 ([], errs0)
    else ([], [])
  (dbPart.1 ++ lbPart.1, dbPart.2 ++ lbPart.2)

/-- Modelled from the spec: the constant `defaultDiscoveryLimit` is
declared in a configuration file that is not part of the provided
sources (only its uses are); the spec requires the discovery page size
to be positive, and the repository factory/tests use 100. -/
def defaultDiscoveryLimit : Int := 100

/-- The inner per-page accumulation of `ListManagedDatabaseServiceUUIDs`
(`seen` set, ordered `discovered` list, `newItems` counter). -/
def addPage : List String → List String → Nat → List String → List String × List String × Nat
  | seen, discovered, newItems, [] => (seen, discovered, newItems)
  | seen, discovered, newItems, id :: rest =>
    if id ∈ seen then addPage seen discovered newItems rest
    else addPage (id :: seen) (discovered ++ [id]) (newItems + 1) rest

/-- The pagination loop of `ListManagedDatabaseServiceUUIDs`.  `pages`
abstracts `getJSON` + `extractUUIDs`: the identifiers extracted from
the page at a given offset.  The result also counts the requests made;
`none` means the supplied fuel ran out before the loop stopped (the
termination theorem shows sufficient fuel exists). -/
def discoverLoop (pages : Int → List String) (limit : Int) :
    Nat → List String → List String → Int → Nat → Option (List String × Nat)
  | 0, _, _, _, _ => none
  | fuel + 1, seen, discovered, offset, reqs =>
    if ((pages offset).length : Int) < limit ∨ (addPage seen discovered 0 (pages offset)).2.2 = 0
    then some (sortStrings (addPage seen discovered 0 (pages offset)).2.1, reqs + 1)
    else
      discoverLoop pages limit fuel (addPage seen discovered 0 (pages offset)).1
        (addPage seen discovered 0 (pages offset)).2.1 (offset + limit) (reqs + 1)

/-- The repository's `ListManagedDatabaseServiceUUIDs` (the `httpClient`
implementation): non-positive limits fall back to the default, offsets
advance by `limit`, the loop stops on a short page or a page with no
new identifiers, and the accumulated distinct identifiers are sorted. -/
def ListManagedDatabaseServiceUUIDs (pages : Int → List String) (limit : Int) (fuel : Nat) :
    Option (List String × Nat) :=
  let limit := if limit ≤ 0 then defaultDiscoveryLimit else limit
  discoverLoop pages limit fuel [] [] 0 0

/-- The repository's `parseUpdatedAt`: trim, try RFC3339Nano then
RFC3339, fall back to the current time. -/
def parseUpdatedAt (lib : TimeLib) (raw : GoValue) : lib.T :=
  match raw with
  | GoValue.str s =>
    let s := trimSpace s
    if s = "" then lib.nowTimestamp lib.zero
    else
      match lib.parse3339Nano s with
      | some t => t
      | none =>
        match lib.parse3339 s with
        | some t => t
        | none => lib.nowTimestamp lib.zero
  | _ => lib.nowTimestamp lib.zero

/-- The converter's per-metric accumulator (`seriesBucket`). -/
structure SeriesBucket (T : Type) where
  timestamp : T
  values : List (String × Frac)

/-- The converter's `addMetric` closure: create the bucket on first
use (timestamp defaulting through `nowTimestamp`), keep the maximum
timestamp, store/overwrite the per-series value. -/
def addMetric (lib : TimeLib) (buckets : List (String × SeriesBucket lib.T))
    (metricKey series : String) (value : Frac) (ts : lib.T) :
    List (String × SeriesBucket lib.T) :=
  match assocGet buckets metricKey with
  | none =>
    buckets ++ [(metricKey, { timestamp := lib.nowTimestamp ts, values := [(series, value)] })]
  | some bucket =>
    let bucket := if lib.after ts bucket.timestamp then { bucket with timestamp := ts } else bucket
    let bucket := { bucket with values := assocSet bucket.values series value }
    assocSet buckets metricKey bucket

/-- The converter's `processObject` closure: parse the sub-entity's
`updated_at`, then fold each numeric-valued field into its
`<keyStem>.<fieldName>` bucket. -/
def processObject (lib : TimeLib) (keyStem series : String)
    (fields : List (String × GoValue)) (buckets : List (String × SeriesBucket lib.T)) :
    List (String × SeriesBucket lib.T) :=
  let ts := parseUpdatedAt lib (match assocGet fields "updated_at" with
    | some v => v
    | none => GoValue.null)
  fields.foldl (fun bs kv =>
    match toFloat64 kv.2 with
    | none => bs
    | some value => addMetric lib bs (keyStem ++ "." ++ kv.1) series value ts) buckets

/-- The sub-entity array under a key of the snapshot root: Go's
`root[key].([]any)` type assertion (non-arrays give `nil`). -/
def arrAt (fields : List (String × GoValue)) (key : String) : List GoValue :=
  match assocGet fields key with
  | some (GoValue.arr xs) => xs
  | _ => []

/-- The sub-entity's name: Go's `obj["name"].(string)` assertion. -/
def nameOf (fields : List (String × GoValue)) : String :=
  match assocGet fields "name" with
  | some (GoValue.str s) => s
  | _ => ""

/-- Fold one indexed `frontends` entry into the buckets. -/
def processFrontend (lib : TimeLib) (buckets : List (String × SeriesBucket lib.T))
    (entry : Nat × GoValue) : List (String × SeriesBucket lib.T) :=
  match entry.2 with
  | GoValue.obj fields =>
    let name := nameOf fields
    let name := if trimSpace name = "" then "frontend-" ++ Nat.repr entry.1 else name
    processObject lib "frontend" ("frontend:" ++ name) fields buckets
  | _ => buckets

/-- Fold one indexed `members` entry of a backend into the buckets. -/
def processMember (lib : TimeLib) (series : String)
    (buckets : List (String × SeriesBucket lib.T)) (entry : Nat × GoValue) :
    List (String × SeriesBucket lib.T) :=
  match entry.2 with
  | GoValue.obj fields =>
    let name := nameOf fields
    let name := if trimSpace name = "" then "member-" ++ Nat.repr entry.1 else name
    processObject lib "backend.member" (series ++ "/member:" ++ name) fields buckets
  | _ => buckets

/-- Fold one indexed `backends` entry (and its nested members) into the
buckets. -/
def processBackend (lib : TimeLib) (buckets : List (String × SeriesBucket lib.T))
    (entry : Nat × GoValue) : List (String × SeriesBucket lib.T) :=
  match entry.2 with
  | GoValue.obj fields =>
    let name := nameOf fields
    let name := if trimSpace name = "" then "backend-" ++ Nat.repr entry.1 else name
    let series := "backend:" ++ name
    let buckets := processObject lib "backend" series fields buckets
    (arrAt fields "members").enum.foldl (processMember lib series) buckets
  | _ => buckets

/-- Models `strings.ReplaceAll(metricKey, "_", " ")`. -/
def replaceUnderscores (s : String) : String :=
  String.mk (s.data.map (fun c => if c = '_' then ' ' else c))

/-- Materialize one bucket into its canonical tabular `MetricsItem`:
synthetic sorted columns after `"time"`, exactly one row. -/
def materializeBucket (lib : TimeLib) (kb : String × SeriesBucket lib.T) :
    String × MetricsItem :=
  let seriesNames := sortStrings (kb.2.values.map Prod.fst)
  let cols := ⟨"time", "date"⟩ ::
    seriesNames.map (fun s => MetricsColumn.mk s "number")
  let row := GoValue.str (lib.format kb.2.timestamp) ::
    seriesNames.map (fun s => GoValue.float (match assocGet kb.2.values s with
      | some v => v
      | none => ⟨0, 1⟩))
  (kb.1,
    { data := { cols := cols, rows := [row] },
      hints := { title := replaceUnderscores kb.1 } })

/-- The buckets accumulated from a snapshot root by the converter's
traversal (frontends, then backends with their members). -/
def snapshotBuckets (lib : TimeLib) (root : List (String × GoValue)) :
    List (String × SeriesBucket lib.T) :=
  let buckets : List (String × SeriesBucket lib.T) := []
  let buckets := (arrAt root "frontends").enum.foldl (processFrontend lib) buckets
  (arrAt root "backends").enum.foldl (processBackend lib) buckets

/-- The repository's `convertLoadBalancerSnapshotToMetricsResponse`. -/
def convertLoadBalancerSnapshotToMetricsResponse (lib : TimeLib) (payload : GoValue) :
    Except String MetricsResponse :=
  match payload with
  | GoValue.obj root =>
    let buckets := snapshotBuckets lib root
    if buckets.isEmpty then Except.error "no numeric load balancer metrics discovered"
    else Except.ok (buckets.map (materializeBucket lib))
  | _ => Except.error "snapshot payload is not an object"

/-- How many fields of one sub-entity object hold numeric values
(`toFloat64` succeeds). -/
def objNumericCount (fields : List (String × GoValue)) : Nat :=
  (fields.filter (fun kv => (toFloat64 kv.2).isSome)).length

/-- Numeric fields contributed by one `frontends` entry. -/
def frontendNumericCount (entry : Nat × GoValue) : Nat :=
  match entry.2 with
  | GoValue.obj fields => objNumericCount fields
  | _ => 0

/-- Numeric fields contributed by one `members` entry. -/
def memberNumericCount (entry : Nat × GoValue) : Nat :=
  match entry.2 with
  | GoValue.obj fields => objNumericCount fields
  | _ => 0

/-- Numeric fields contributed by one `backends` entry including its
nested members. -/
def backendNumericCount (entry : Nat × GoValue) : Nat :=
  match entry.2 with
  | GoValue.obj fields =>
    objNumericCount fields + ((arrAt fields "members").enum.map memberNumericCount).sum
  | _ => 0

/-- The total number of numeric-valued fields the converter's traversal
discovers in a snapshot payload (zero for a non-object payload). -/
def snapshotNumericFieldCount (payload : GoValue) : Nat :=
  match payload with
  | GoValue.obj root =>
    ((arrAt root "frontends").enum.map frontendNumericCount).sum +
      ((arrAt root "backends").enum.map backendNumericCount).sum
  | _ => 0

/-- A concrete instantiation of the abstract time interface (integer
instants, parsing always failing, `now = 1`) used by the concrete
evaluations below. -/
def intTimeLib : TimeLib where
  T := Int
  parse3339 := fun _ => none
  parse3339Nano := fun _ => none
  format := fun _ => ""
  now := 1
  zero := 0
  isZero := fun t => t == 0
  after := fun a b => decide (b < a)

/-- A backend page function exhibiting full pages that mix one new
identifier with already-seen ones. -/
def cexPages : Int → List String := fun offset =>
  if offset = 0 then ["a", "b"]
  else if offset = 2 then ["a", "c"]
  else if offset = 4 then ["a", "d"]
  else if offset = 6 then ["a", "b"]
  else []

/-- A well-formed tabular metric entry (two columns, two rows, the last
row carrying a float-parseable string value). -/
def sampleItem : MetricsItem :=
  { data :=
      { cols := [⟨"time", "date"⟩, ⟨"primary", "number"⟩],
        rows := [[GoValue.str "old", GoValue.num "1"],
                 [GoValue.str "2026-02-21T08:00:00Z", GoValue.str "2.5"]] },
    hints := { title := "CPU usage %" } }

/-- A client with one succeeding and one failing managed database. -/
def sampleClient : Client where
  listManagedDatabaseServiceUUIDs := fun _ _ => Except.ok []
  listManagedLoadBalancerUUIDs := fun _ => Except.ok []
  getManagedDatabaseMetrics := fun uuid _ =>
    if uuid = "db-ok" then Except.ok [("cpu_usage", sampleItem)] else Except.error "boom"
  getManagedLoadBalancerMetrics := fun _ _ => Except.error "lb down"

/-- A database block with one succeeding and one failing explicit
target. -/
def sampleDbConfig : ManagedDatabaseConfig :=
  { enabled := true, uuids := ["db-fail", "db-ok"], excludeUUIDs := [],
    autoDiscover := false, discoveryPath := "", discoveryLimit := 0,
    period := "5m", metrics := [] }

/-- A disabled load-balancer block. -/
def sampleLbConfig : ManagedLoadBalancerConfig :=
  { enabled := false, uuids := [], excludeUUIDs := [], autoDiscover := false,
    discoveryPath := "", period := "5m", metrics := [],
    metricsPathTemplate := "/1.3/load-balancer/{uuid}/metrics" }

/-- The receiver configuration built from the sample blocks. -/
def sampleConfig : Config :=
  { collectionInterval := 60, initialDelay := 1,
    api := { endpoint := "https://api.upcloud.com", token := "t", tokenFile := "",
             username := "", password := "", passwordFile := "", timeout := 10 },
    managedDatabases := sampleDbConfig,
    managedLoadBalancers := sampleLbConfig }

/-- A database block whose explicit target and exclusion entry carry
surrounding whitespace. -/
def cexExcludeConfig : ManagedDatabaseConfig :=
  { enabled := true, uuids := [" a "], excludeUUIDs := [" a "],
    autoDiscover := false, discoveryPath := "", discoveryLimit := 0,
    period := "", metrics := [] }

/-- A snapshot payload with a single numeric frontend field. -/
def sampleSnapshot : GoValue :=
  GoValue.obj [("frontends", GoValue.arr
    [GoValue.obj [("name", GoValue.str "f1"), ("total_http_requests", GoValue.num "12")]])]

/-- The response the converter produces from `sampleSnapshot` under
`intTimeLib`. -/
def sampleSnapshotResp : MetricsResponse :=
  [("frontend.total_http_requests",
    { data :=
        { cols := [⟨"time", "date"⟩, ⟨"frontend:f1", "number"⟩],
          rows := [[GoValue.str "", GoValue.float ⟨12, 1⟩]] },
      hints := { title := "frontend.total http requests" } })]

theorem charListLeb_iff_not_lex :
    ∀ as bs : List Char, charListLeb as bs = true ↔ ¬ List.Lex (· < ·) bs as := by
  intro as
  induction as with
  | nil =>
    intro bs
    simp [charListLeb, List.Lex.not_nil_right]
  | cons a as ih =>
    intro bs
    cases bs with
    | nil =>
      simp only [charListLeb, Bool.false_eq_true, false_iff, not_not]
      exact List.Lex.nil
    | cons b bs =>
      by_cases hab : a = b
      · subst hab
        have hunfold : charListLeb (a :: as) (a :: bs) = charListLeb as bs := by
          simp [charListLeb]
        rw [hunfold, ih]
        constructor
        · intro h hlex
          exact h (List.Lex.cons_iff.mp hlex)
        · intro h hlex
          exact h (List.Lex.cons hlex)
      · have hunfold : charListLeb (a :: as) (b :: bs) = decide (a < b) := by
          simp [charListLeb, hab]
        rw [hunfold, decide_eq_true_eq]
        constructor
        · intro hlt hlex
          cases hlex with
          | cons h => exact hab rfl
          | rel h => exact absurd hlt (lt_asymm h)
        · intro h
          rcases lt_trichotomy a b with hlt | heq | hgt
          · exact hlt
          · exact absurd heq hab
          · exact absurd (List.Lex.rel hgt) h

theorem strLeb_iff_le {a b : String} : strLeb a b = true ↔ a ≤ b := by
  rw [strLeb, charListLeb_iff_not_lex, ← not_lt]
  exact not_congr (Iff.symm String.lt_iff_toList_lt)

instance : IsTotal String (fun a b => strLeb a b = true) :=
  ⟨fun a b => by
    rcases le_total a b with h | h
    · exact Or.inl (strLeb_iff_le.mpr h)
    · exact Or.inr (strLeb_iff_le.mpr h)⟩

instance : IsTrans String (fun a b => strLeb a b = true) :=
  ⟨fun _ _ _ hab hbc =>
    strLeb_iff_le.mpr (le_trans (strLeb_iff_le.mp hab) (strLeb_iff_le.mp hbc))⟩

theorem mem_dedupeAux {x : String} :
    ∀ {l : List String} {seen : List String},
      x ∈ dedupeAux seen l ↔ x ∈ l ∧ x ∉ seen := by
  intro l
  induction l with
  | nil => intro seen; simp [dedupeAux]
  | cons v rest ih =>
    intro seen
    by_cases hv : v ∈ seen
    · simp only [dedupeAux, if_pos hv, ih, List.mem_cons]
      by_cases hxv : x = v
      · subst hxv; tauto
      · tauto
    · simp only [dedupeAux, if_neg hv, List.mem_cons, ih]
      by_cases hxv : x = v
      · subst hxv; tauto
      · tauto

theorem mem_dedupe {x : String} {l : List String} :
    x ∈ dedupe l ↔ x ∈ l := by
  simp [dedupe, mem_dedupeAux]

theorem nodup_dedupeAux :
    ∀ (l : List String) (seen : List String), (dedupeAux seen l).Nodup := by
  intro l
  induction l with
  | nil => intro seen; simp [dedupeAux]
  | cons v rest ih =>
    intro seen
    by_cases hv : v ∈ seen
    · simpa [dedupeAux, hv] using ih seen
    · simp only [dedupeAux, if_neg hv, List.nodup_cons]
      refine ⟨fun h => ?_, ih _⟩
      exact (mem_dedupeAux.mp h).2 (List.mem_cons_self _ _)

theorem nodup_dedupe (l : List String) : (dedupe l).Nodup :=
  nodup_dedupeAux l []

theorem sortStrings_sorted (l : List String) : List.Sorted (· ≤ ·) (sortStrings l) :=
  (List.sorted_insertionSort _ l).imp (fun h => strLeb_iff_le.mp h)

theorem sortStrings_perm (l : List String) : List.Perm (sortStrings l) l :=
  List.perm_insertionSort _ l

theorem mem_sortStrings {x : String} {l : List String} : x ∈ sortStrings l ↔ x ∈ l :=
  (sortStrings_perm l).mem_iff

theorem nodup_sortStrings {l : List String} (h : l.Nodup) : (sortStrings l).Nodup :=
  ((sortStrings_perm l).nodup_iff).mpr h

theorem bnot_contains_iff {l : List String} {x : String} :
    (!(l.contains x)) = true ↔ x ∉ l := by
  simp

theorem mem_applyExcludeUUIDs {x : String} {targets exclude : List String} :
    x ∈ applyExcludeUUIDs targets exclude ↔
      x ∈ targets ∧ x ∉ (exclude.map trimSpace).filter (fun t => t ≠ "") := by
  unfold applyExcludeUUIDs
  by_cases h : (dedupe targets).isEmpty
  · have hnil : dedupe targets = [] := by simpa using h
    have hx : x ∉ targets := fun hx => by
      have hmem := (mem_dedupe (x := x) (l := targets)).mpr hx
      rw [hnil] at hmem
      cases hmem
    rw [if_pos h, hnil]
    simp [hx]
  · rw [if_neg h]
    simp only [mem_sortStrings, List.mem_filter, mem_dedupe, bnot_contains_iff]

theorem nodup_applyExcludeUUIDs (targets exclude : List String) :
    (applyExcludeUUIDs targets exclude).Nodup := by
  unfold applyExcludeUUIDs
  by_cases h : (dedupe targets).isEmpty
  · rw [if_pos h]
    exact nodup_dedupe targets
  · rw [if_neg h]
    exact nodup_sortStrings ((nodup_dedupe targets).filter _)

theorem sorted_applyExcludeUUIDs (targets exclude : List String) :
    List.Sorted (· ≤ ·) (applyExcludeUUIDs targets exclude) := by
  unfold applyExcludeUUIDs
  by_cases h : (dedupe targets).isEmpty
  · have hnil : dedupe targets = [] := by simpa using h
    rw [if_pos h, hnil]
    exact List.sorted_nil
  · rw [if_neg h]
    exact sortStrings_sorted _

/-- Claim C1 (amended).  In the error-free case, managed-database target
resolution returns `applyExcludeUUIDs` applied to the union of explicit
and discovered identifiers, and for all explicit, discovered and
exclusion lists that result is deduplicated before exclusions apply,
sorted ascending, duplicate-free, and contains an identifier iff it is
an explicit or discovered identifier that does not equal any
whitespace-trimmed non-blank exclusion entry.  (Amendment: the code
removes targets equal to a *trimmed* exclusion entry and ignores blank
entries, not targets equal to raw exclusion-list entries.) -/
theorem C1_target_resolution :
    (∀ (client : Client) (cfg : ManagedDatabaseConfig) (discovered : List String),
      cfg.autoDiscover = true →
      client.listManagedDatabaseServiceUUIDs cfg.discoveryPath cfg.discoveryLimit =
        Except.ok discovered →
      resolveManagedDatabaseUUIDs client cfg =
        (applyExcludeUUIDs (cfg.uuids ++ discovered) cfg.excludeUUIDs, none)) ∧
    (∀ (client : Client) (cfg : ManagedLoadBalancerConfig) (discovered : List String),
      cfg.autoDiscover = true →
      client.listManagedLoadBalancerUUIDs cfg.discoveryPath = Except.ok discovered →
      resolveManagedLoadBalancerUUIDs client cfg =
        (applyExcludeUUIDs (cfg.uuids ++ discovered) cfg.excludeUUIDs, none)) ∧
    (∀ explicitIds discovered exclude : List String,
      List.Sorted (· ≤ ·) (applyExcludeUUIDs (explicitIds ++ discovered) exclude) ∧
      (applyExcludeUUIDs (explicitIds ++ discovered) exclude).Nodup ∧
      (∀ x, x ∈ applyExcludeUUIDs (explicitIds ++ discovered) exclude ↔
        (x ∈ explicitIds ∨ x ∈ discovered) ∧
          x ∉ (exclude.map trimSpace).filter (fun t => t ≠ ""))) := by
  refine ⟨?_, ?_, ?_⟩
  · intro client cfg discovered hauto hok
    unfold resolveManagedDatabaseUUIDs
    rw [hauto]
    simp [hok]
  · intro client cfg discovered hauto hok
    unfold resolveManagedLoadBalancerUUIDs
    rw [hauto]
    simp [hok]
  · intro explicitIds discovered exclude
    refine ⟨sorted_applyExcludeUUIDs _ _, nodup_applyExcludeUUIDs _ _, fun x => ?_⟩
    rw [mem_applyExcludeUUIDs, List.mem_append]

/-- Claim C1 witness: the amended characterization applied to concrete
lists. -/
theorem C1_target_resolution_witness :
    resolveManagedDatabaseUUIDs sampleClient
      { enabled := true, uuids := ["b"], excludeUUIDs := ["c"], autoDiscover := true,
        discoveryPath := "", discoveryLimit := 0, period := "", metrics := [] } =
      (applyExcludeUUIDs (["b"] ++ []) ["c"], none) ∧
    ("b" ∈ applyExcludeUUIDs (["b"] ++ ["a", "c"]) ["c"] ↔
      ("b" ∈ ["b"] ∨ "b" ∈ ["a", "c"]) ∧
        "b" ∉ (["c"].map trimSpace).filter (fun t => t ≠ "")) :=
  ⟨C1_target_resolution.1 sampleClient _ [] rfl rfl,
    (C1_target_resolution.2.2 ["b"] ["a", "c"] ["c"]).2.2 "b"⟩

/-- Claim C1 counterexample to the claim as stated: with explicit list
`[" a "]` and exclusion list `[" a "]` the error-free resolution
returns `[" a "]`, which still contains the identifier `" a "` of the
exclusion list (the code excludes by *trimmed* entry `"a"`). -/
theorem C1_counterexample :
    resolveManagedDatabaseUUIDs sampleClient cexExcludeConfig = ([" a "], none) ∧
    " a " ∈ cexExcludeConfig.excludeUUIDs := by
  constructor
  · decide
  · decide

theorem addPage_seen_nodup :
    ∀ (page seen discovered : List String) (n : Nat),
      seen.Nodup → (addPage seen discovered n page).1.Nodup := by
  intro page
  induction page with
  | nil =>
    intro seen discovered n h
    simpa [addPage] using h
  | cons id rest ih =>
    intro seen discovered n h
    by_cases hid : id ∈ seen
    · simp only [addPage, if_pos hid]
      exact ih seen discovered n h
    · simp only [addPage, if_neg hid]
      exact ih _ _ _ (List.nodup_cons.mpr ⟨hid, h⟩)

theorem addPage_seen_subset {S : Finset String} :
    ∀ (page seen discovered : List String) (n : Nat),
      (∀ x ∈ seen, x ∈ S) → (∀ x ∈ page, x ∈ S) →
      ∀ x ∈ (addPage seen discovered n page).1, x ∈ S := by
  intro page
  induction page with
  | nil =>
    intro seen discovered n hs _ x hx
    simp only [addPage] at hx
    exact hs x hx
  | cons id rest ih =>
    intro seen discovered n hs hp x hx
    by_cases hid : id ∈ seen
    · simp only [addPage, if_pos hid] at hx
      exact ih seen discovered n hs (fun y hy => hp y (List.mem_cons_of_mem _ hy)) x hx
    · simp only [addPage, if_neg hid] at hx
      refine ih _ _ _ ?_ (fun y hy => hp y (List.mem_cons_of_mem _ hy)) x hx
      intro y hy
      rcases List.mem_cons.mp hy with rfl | hy
      · exact hp y (List.mem_cons_self _ _)
      · exact hs y hy

theorem addPage_seen_length :
    ∀ (page seen discovered : List String) (n : Nat),
      (addPage seen discovered n page).1.length + n =
        seen.length + (addPage seen discovered n page).2.2 := by
  intro page
  induction page with
  | nil =>
    intro seen discovered n
    simp [addPage]
  | cons id rest ih =>
    intro seen discovered n
    by_cases hid : id ∈ seen
    · simp only [addPage, if_pos hid]
      exact ih seen discovered n
    · simp only [addPage, if_neg hid]
      have h := ih (id :: seen) (discovered ++ [id]) (n + 1)
      simp only [List.length_cons] at h
      omega

theorem length_le_card {S : Finset String} {l : List String}
    (hn : l.Nodup) (hsub : ∀ x ∈ l, x ∈ S) : l.length ≤ S.card := by
  classical
  have hss : l.toFinset ⊆ S := fun x hx => hsub x (List.mem_toFinset.mp hx)
  calc l.length = l.toFinset.card := (List.toFinset_card_of_nodup hn).symm
    _ ≤ S.card := Finset.card_le_card hss

theorem discoverLoop_terminates (pages : Int → List String) (limit : Int) (S : Finset String)
    (hpages : ∀ o, ∀ x ∈ pages o, x ∈ S) :
    ∀ (fuel : Nat) (seen discovered : List String) (offset : Int) (reqs : Nat),
      seen.Nodup → (∀ x ∈ seen, x ∈ S) →
      S.card + 1 ≤ fuel + seen.length →
      ∃ out r, discoverLoop pages limit fuel seen discovered offset reqs = some (out, r) ∧
        r ≤ reqs + (S.card + 1 - seen.length) := by
  intro fuel
  induction fuel with
  | zero =>
    intro seen discovered offset reqs hnd hsub hfuel
    have := length_le_card hnd hsub
    omega
  | succ fuel ih =>
    intro seen discovered offset reqs hnd hsub hfuel
    by_cases hstop : ((pages offset).length : Int) < limit ∨
        (addPage seen discovered 0 (pages offset)).2.2 = 0
    · refine ⟨sortStrings (addPage seen discovered 0 (pages offset)).2.1, reqs + 1, ?_, ?_⟩
      · simp only [discoverLoop, if_pos hstop]
      · have := length_le_card hnd hsub
        omega
    · have hnew : 1 ≤ (addPage seen discovered 0 (pages offset)).2.2 := by
        rcases Nat.eq_zero_or_pos (addPage seen discovered 0 (pages offset)).2.2 with h0 | h1
        · exact absurd (Or.inr h0) hstop
        · exact h1
      have hnd' := addPage_seen_nodup (pages offset) seen discovered 0 hnd
      have hsub' :=
        addPage_seen_subset (S := S) (pages offset) seen discovered 0 hsub (hpages offset)
      have hlen := addPage_seen_length (pages offset) seen discovered 0
      have hcard' := length_le_card hnd' hsub'
      obtain ⟨out, r, hrun, hr⟩ :=
        ih (addPage seen discovered 0 (pages offset)).1
          (addPage seen discovered 0 (pages offset)).2.1 (offset + limit) (reqs + 1)
          hnd' hsub' (by omega)
      refine ⟨out, r, ?_, by omega⟩
      simp only [discoverLoop, if_neg hstop]
      exact hrun

/-- Claim C2 (amended).  For every backend page function whose
identifiers all come from a finite set `S` and every positive page
limit, the discovery loop terminates with fuel `|S| + 1` and performs
at most `|S| + 1` requests (each request except the last must
contribute at least one new identifier).  The claimed bound
`ceil(total/page_size) + 1` does not hold for arbitrary page
sequences. -/
theorem C2_pagination_bound (pages : Int → List String) (limit : Int) (S : Finset String)
    (hlim : 1 ≤ limit) (hpages : ∀ o, ∀ x ∈ pages o, x ∈ S) :
    ∃ out reqs, ListManagedDatabaseServiceUUIDs pages limit (S.card + 1) = some (out, reqs) ∧
      reqs ≤ S.card + 1 := by
  unfold ListManagedDatabaseServiceUUIDs
  rw [if_neg (by omega : ¬ limit ≤ 0)]
  obtain ⟨out, r, hrun, hr⟩ :=
    discoverLoop_terminates pages limit S hpages (S.card + 1) [] [] 0 0 (by simp) (by simp)
      (by simp)
  exact ⟨out, r, hrun, by simpa using hr⟩

/-- Claim C2 witness: the amended bound applied to a backend that always
returns the empty page. -/
theorem C2_pagination_bound_witness :
    ∃ out reqs, ListManagedDatabaseServiceUUIDs (fun _ => []) 1
      ((∅ : Finset String).card + 1) = some (out, reqs) ∧
      reqs ≤ (∅ : Finset String).card + 1 :=
  C2_pagination_bound (fun _ => []) 1 ∅ (by decide) (fun o x hx => by cases hx)

/-- Claim C2 counterexample to the claimed bound: a backend returning
full pages `["a","b"], ["a","c"], ["a","d"], ["a","b"]` at offsets
0, 2, 4, 6 has 4 distinct identifiers and page size 2, so the claimed
bound is `ceil(4/2) + 1 = 3` requests, but the loop performs 4
requests before stopping. -/
theorem C2_counterexample :
    ListManagedDatabaseServiceUUIDs cexPages 2 10 = some (["a", "b", "c", "d"], 4) ∧
    (∀ o, ∀ x ∈ cexPages o, x ∈ ["a", "b", "c", "d"]) ∧
    (["a", "b", "c", "d"] : List String).Nodup ∧
    4 > (4 + 2 - 1) / 2 + 1 := by
  refine ⟨by decide, ?_, by decide, by decide⟩
  intro o x hx
  unfold cexPages at hx
  repeat' split at hx
  all_goals simp only [List.mem_cons, List.not_mem_nil, or_false] at hx ⊢ <;> tauto

/-- Claim C5.  If neither bearer credentials (token or token file) nor
basic credentials (username, password or password file) are configured
— all blank after trimming — then `APIConfig.Validate` fails with the
authentication-required error, so configuration validation (which runs
before the HTTP client is built) rejects the receiver at construction. -/
theorem C5_auth_required (cfg : APIConfig)
    (htoken : trimSpace cfg.token = "") (htokenFile : trimSpace cfg.tokenFile = "")
    (huser : trimSpace cfg.username = "") (hpass : trimSpace cfg.password = "")
    (hpassFile : trimSpace cfg.passwordFile = "") :
    cfg.Validate =
      some "api authentication is required: set token/token_file or username+password" := by
  unfold APIConfig.Validate
  simp [htoken, htokenFile, huser, hpass, hpassFile]

/-- Claim C5 witness: the fully blank credential configuration is
rejected. -/
theorem C5_auth_required_witness :
    APIConfig.Validate
      { endpoint := "https://api.upcloud.com", token := "", tokenFile := "",
        username := "", password := "", passwordFile := "", timeout := 10 } =
      some "api authentication is required: set token/token_file or username+password" :=
  C5_auth_required _ rfl rfl rfl rfl rfl

/-- Claim C7.  For every resource type and metric key whose trimmed form
ends in `_usage` and has no exact entry in that resource type's static
descriptor table, `descriptorForMetric` synthesizes the ratio
descriptor: `PercentToRatio = true`, unit `"1"`, and name
`upcloud.<resourceType>.<sanitized stem>.utilization`. -/
theorem C7_usage_fallback (resourceType metricKey : String)
    (hsuffix : strHasSuffix (trimSpace metricKey) "_usage" = true)
    (hdb : resourceType = resourceTypeManagedDatabase →
      assocGet managedDatabaseMetricDescriptors (trimSpace metricKey) = none)
    (hlb : resourceType = resourceTypeManagedLoadBalancer →
      assocGet managedLoadBalancerMetricDescriptors (trimSpace metricKey) = none) :
    descriptorForMetric resourceType metricKey =
      { Name := "upcloud." ++ resourceType ++ "." ++
          sanitizeMetricPath (strTrimSuffix (trimSpace metricKey) "_usage") ++ ".utilization",
        Unit := "1",
        PercentToRatio := true } := by
  unfold descriptorForMetric
  have hne : resourceTypeManagedDatabase ≠ resourceTypeManagedLoadBalancer := by decide
  by_cases h1 : resourceType = resourceTypeManagedDatabase
  · simp [h1, hne, hdb h1, hsuffix]
  · by_cases h2 : resourceType = resourceTypeManagedLoadBalancer
    · simp [h1, h2, hne.symm, hlb h2, hsuffix]
    · simp [h1, h2, hsuffix]

/-- Claim C7 witness: `" heap_usage"` for an unknown resource type. -/
theorem C7_usage_fallback_witness :
    descriptorForMetric "widget" " heap_usage" =
      { Name := "upcloud." ++ "widget" ++ "." ++
          sanitizeMetricPath (strTrimSuffix (trimSpace " heap_usage") "_usage") ++ ".utilization",
        Unit := "1",
        PercentToRatio := true } :=
  C7_usage_fallback "widget" " heap_usage" (by decide)
    (fun h => absurd h (by decide)) (fun h => absurd h (by decide))

/-- Claim C6.  `appendMetric` output is derived exclusively from the last
row: replacing the row list by just its last row gives the same
result; and an entry with fewer than two columns or zero rows produces
no metric record at all. -/
theorem C6_last_row_only :
    (∀ (lib : TimeLib) (metricKey : String) (item : MetricsItem) (resourceType : String),
      item.data.rows ≠ [] →
      appendMetric lib metricKey item resourceType =
        appendMetric lib metricKey
          { item with data := { item.data with rows := [item.data.rows.getLastD []] } }
          resourceType) ∧
    (∀ (lib : TimeLib) (metricKey : String) (item : MetricsItem) (resourceType : String),
      item.data.cols.length < 2 ∨ item.data.rows = [] →
      appendMetric lib metricKey item resourceType = none) := by
  constructor
  · intro lib metricKey item resourceType hrows
    obtain ⟨⟨cols, rows⟩, hints⟩ := item
    simp only at hrows
    unfold appendMetric
    by_cases hcols : cols.length < 2
    · simp [hcols]
    · have h0 : ¬ rows.length = 0 := by
        simpa [List.length_eq_zero] using hrows
      rw [if_neg (not_or.mpr ⟨hcols, h0⟩)]
      rw [if_neg (not_or.mpr ⟨hcols, by simp⟩)]
      simp
  · intro lib metricKey item resourceType h
    unfold appendMetric
    rcases h with h | h
    · rw [if_pos (Or.inl h)]
    · rw [if_pos (Or.inr (by simp [h]))]

/-- Claim C6 witness: the two-row sample entry gives the same metric as
its last row alone. -/
theorem C6_last_row_only_witness :
    appendMetric intTimeLib "cpu_usage" sampleItem resourceTypeManagedDatabase =
      appendMetric intTimeLib "cpu_usage"
        { sampleItem with data :=
            { sampleItem.data with rows := [sampleItem.data.rows.getLastD []] } }
        resourceTypeManagedDatabase :=
  C6_last_row_only.1 intTimeLib "cpu_usage" sampleItem resourceTypeManagedDatabase
    (List.cons_ne_nil _ _)

theorem length_filterMap_isSome {α β : Type} (g : α → Option β) (l : List α) :
    (l.filterMap g).length = (l.filter (fun a => (g a).isSome)).length := by
  induction l with
  | nil => rfl
  | cons a rest ih =>
    cases hg : g a <;> simp [List.filterMap_cons, List.filter_cons, hg, ih]

/-- Claim C9.  At the emission boundary a column value that is a string
parseable as a float is not skipped: the emitted metric carries a data
point with the parsed, descriptor-normalized value for that column,
and the number of emitted points equals the number of columns whose
value `toFloat64` accepts (so exactly the non-numeric values are
skipped). -/
theorem C9_string_values_emitted (lib : TimeLib) (metricKey : String) (item : MetricsItem)
    (resourceType : String) (idx : Nat) (s : String) (q : Frac)
    (hcols : 2 ≤ item.data.cols.length) (hrows : item.data.rows ≠ [])
    (hrowlen : 2 ≤ (item.data.rows.getLastD []).length)
    (hidx1 : 1 ≤ idx) (hidxc : idx < item.data.cols.length)
    (hidxr : idx < (item.data.rows.getLastD []).length)
    (hval : (item.data.rows.getLastD []).getD idx GoValue.null = GoValue.str s)
    (hparse : parseFloat s = some q) :
    ∃ rec, appendMetric lib metricKey item resourceType = some rec ∧
      ({ timestamp := extractTime lib ((item.data.rows.getLastD []).headD GoValue.null),
         value := (descriptorForMetric resourceType metricKey).normalizeValue q,
         metricName := metricKey,
         series := (item.data.cols.getD idx ⟨"", ""⟩).label,
         percentToRatioAttr := (descriptorForMetric resourceType metricKey).PercentToRatio } :
        DataPoint lib.T) ∈ rec.points ∧
      rec.points.length =
        ((item.data.cols.tail.zip (item.data.rows.getLastD []).tail).filter
          (fun cv => (toFloat64 cv.2).isSome)).length := by
  have h1 : ¬ (item.data.cols.length < 2 ∨ item.data.rows.length = 0) :=
    not_or.mpr ⟨by omega, by simpa [List.length_eq_zero] using hrows⟩
  have h2 : ¬ ((item.data.rows.getLastD []).length < 2) := by omega
  simp only [appendMetric, h1, h2, if_false, reduceIte]
  refine ⟨_, rfl, ?_, ?_⟩
  · dsimp only
    rw [List.mem_filterMap]
    have hzlen : idx - 1 < (item.data.cols.tail.zip (item.data.rows.getLastD []).tail).length := by
      rw [List.length_zip, List.length_tail, List.length_tail]
      omega
    refine ⟨(item.data.cols.tail.zip (item.data.rows.getLastD []).tail).getD (idx - 1)
        (⟨"", ""⟩, GoValue.null), ?_, ?_⟩
    · rw [List.getD_eq_getElem _ _ hzlen]
      exact List.getElem_mem _
    · rw [List.getD_eq_getElem _ _ hzlen, List.getElem_zip, List.getElem_tail, List.getElem_tail]
      have hidx : idx - 1 + 1 = idx := by omega
      simp only [hidx]
      have hv : (item.data.rows.getLastD [])[idx] = GoValue.str s := by
        rw [← List.getD_eq_getElem _ GoValue.null hidxr]
        exact hval
      have hc : (item.data.cols)[idx] = item.data.cols.getD idx ⟨"", ""⟩ :=
        (List.getD_eq_getElem _ _ hidxc).symm
      simp only [List.getLastD_eq_getLast?] at hv
      simp [hv, hc, toFloat64, hparse]
  · dsimp only
    rw [length_filterMap_isSome]
    apply congrArg
    apply List.filter_congr
    intro cv _
    simp

/-- Claim C9 witness: the sample entry's `"2.5"` string value is parsed
and emitted (column 1). -/
theorem C9_string_values_emitted_witness :
    ∃ rec, appendMetric intTimeLib "cpu_usage" sampleItem resourceTypeManagedDatabase =
        some rec ∧
      ({ timestamp := extractTime intTimeLib
            ((sampleItem.data.rows.getLastD []).headD GoValue.null),
         value := (descriptorForMetric resourceTypeManagedDatabase
            "cpu_usage").normalizeValue ⟨25, 10⟩,
         metricName := "cpu_usage",
         series := (sampleItem.data.cols.getD 1 ⟨"", ""⟩).label,
         percentToRatioAttr := (descriptorForMetric resourceTypeManagedDatabase
            "cpu_usage").PercentToRatio } : DataPoint intTimeLib.T) ∈ rec.points ∧
      rec.points.length =
        ((sampleItem.data.cols.tail.zip (sampleItem.data.rows.getLastD []).tail).filter
          (fun cv => (toFloat64 cv.2).isSome)).length :=
  C9_string_values_emitted intTimeLib "cpu_usage" sampleItem resourceTypeManagedDatabase
    1 "2.5" ⟨25, 10⟩ (by decide) (List.cons_ne_nil _ _) (by decide) (by decide) (by decide)
    (by decide) rfl rfl

theorem mem_toAllowlist {x : String} {values : List String} :
    x ∈ toAllowlist values ↔ ∃ e ∈ values, trimSpace e ≠ "" ∧ trimSpace e = x := by
  unfold toAllowlist
  by_cases h : values.length = 0
  · have hv : values = [] := List.length_eq_zero.mp h
    subst hv
    simp
  · rw [if_neg h, mem_dedupe, List.mem_filter, List.mem_map]
    constructor
    · rintro ⟨⟨e, he, rfl⟩, hne⟩
      exact ⟨e, he, by simpa using hne, rfl⟩
    · rintro ⟨e, he, hne, rfl⟩
      exact ⟨⟨e, he, rfl⟩, by simpa using hne⟩

theorem toAllowlist_eq_nil_of_all_blank {values : List String}
    (h : ∀ e ∈ values, trimSpace e = "") : toAllowlist values = [] := by
  unfold toAllowlist
  by_cases hlen : values.length = 0
  · rw [if_pos hlen]
  · rw [if_neg hlen]
    have hfil : (values.map trimSpace).filter (fun t => t ≠ "") = [] := by
      rw [List.filter_eq_nil_iff]
      rintro t ht
      rw [List.mem_map] at ht
      obtain ⟨e, he, rfl⟩ := ht
      simp [h e he]
    rw [hfil]
    rfl

/-- Claim C8 (amended).  When the configured allow-list has at least one
non-blank entry, a payload entry survives the filter (and then yields a
metric exactly when `appendMetric` accepts it) iff its exact raw key
equals the whitespace-trimmed form of some non-blank entry; when every
configured entry is blank, the populated allow-list map is empty and
the filter is disabled, so every key passes.  (Amendment: entries are
trimmed and blank entries dropped before matching; the claim's
exact-raw-entry matching and its exclusion of all unmatched keys fail
for whitespace-carrying or all-blank allow-lists.) -/
theorem C8_allowlist_filter (lib : TimeLib) (payload : MetricsResponse)
    (resourceType resourceUUID : String) (allowlist : List String) :
    ((∃ e ∈ allowlist, trimSpace e ≠ "") →
      (appendMetricsPayload lib payload resourceType resourceUUID allowlist).metrics =
        payload.filterMap (fun kv =>
          if ∃ e ∈ allowlist, trimSpace e ≠ "" ∧ trimSpace e = kv.1 then
            appendMetric lib kv.1 kv.2 resourceType
          else none)) ∧
    ((∀ e ∈ allowlist, trimSpace e = "") →
      (appendMetricsPayload lib payload resourceType resourceUUID allowlist).metrics =
        payload.filterMap (fun kv => appendMetric lib kv.1 kv.2 resourceType)) := by
  constructor
  · rintro ⟨e, he, hne⟩
    unfold appendMetricsPayload
    dsimp only
    apply List.filterMap_congr
    intro kv _
    have hpos : 0 < (toAllowlist allowlist).length :=
      List.length_pos_of_mem (mem_toAllowlist.mpr ⟨e, he, hne, rfl⟩)
    by_cases hx : ∃ d ∈ allowlist, trimSpace d ≠ "" ∧ trimSpace d = kv.1
    · have hcont : (toAllowlist allowlist).contains kv.1 = true :=
        List.elem_iff.mpr (mem_toAllowlist.mpr hx)
      rw [if_neg (fun hcond => hcond.2 hcont), if_pos hx]
    · have hcont : ¬ (toAllowlist allowlist).contains kv.1 = true := fun hc =>
        hx (mem_toAllowlist.mp (List.elem_iff.mp hc))
      rw [if_pos ⟨hpos, hcont⟩, if_neg hx]
  · intro hall
    unfold appendMetricsPayload
    dsimp only
    apply List.filterMap_congr
    intro kv _
    rw [toAllowlist_eq_nil_of_all_blank hall]
    simp

/-- Claim C8 witness: with allow-list `["cpu_usage"]`, the emitted
metrics are exactly those whose raw key matches the (trimmed) entry. -/
theorem C8_allowlist_filter_witness :
    (appendMetricsPayload intTimeLib [("cpu_usage", sampleItem), ("other", sampleItem)]
      resourceTypeManagedDatabase "uuid-1" ["cpu_usage"]).metrics =
      ([("cpu_usage", sampleItem), ("other", sampleItem)] : MetricsResponse).filterMap
        (fun kv =>
          if ∃ e ∈ (["cpu_usage"] : List String), trimSpace e ≠ "" ∧ trimSpace e = kv.1 then
            appendMetric intTimeLib kv.1 kv.2 resourceTypeManagedDatabase
          else none) :=
  (C8_allowlist_filter intTimeLib [("cpu_usage", sampleItem), ("other", sampleItem)]
    resourceTypeManagedDatabase "uuid-1" ["cpu_usage"]).1
    ⟨"cpu_usage", by decide, by decide⟩

/-- Claim C8 counterexample to the claim as stated: the configured
allow-list `[" "]` is non-empty, yet the key `"x"` — which equals no
entry of the list — is still emitted, because the blank entry is
dropped and the resulting empty allow-list map disables filtering. -/
theorem C8_counterexample :
    ([" "] : List String) ≠ [] ∧
    (appendMetricsPayload intTimeLib [("x", sampleItem)] resourceTypeManagedDatabase
      "uuid-1" [" "]).metrics.length = 1 ∧
    "x" ∉ ([" "] : List String) := by
  refine ⟨by decide, by decide, by decide⟩

theorem scrapeTargets_spec (lib : TimeLib) (fetch : String → Except String MetricsResponse)
    (errPrefix resourceType : String) (allowlist : List String) :
    ∀ (targets : List String) (acc : List (ResourceRecord lib.T) × List String),
      scrapeTargets lib fetch errPrefix resourceType allowlist targets acc =
        (acc.1 ++ targets.filterMap (fun uuid =>
            match fetch uuid with
            | Except.ok resp =>
              some (appendMetricsPayload lib resp resourceType uuid allowlist)
            | Except.error _ => none),
          acc.2 ++ targets.filterMap (fun uuid =>
            match fetch uuid with
            | Except.ok _ => none
            | Except.error e => some (errPrefix ++ " " ++ uuid ++ ": " ++ e))) := by
  intro targets
  induction targets with
  | nil =>
    intro acc
    simp [scrapeTargets]
  | cons uuid rest ih =>
    intro acc
    cases hf : fetch uuid with
    | ok resp =>
      simp only [scrapeTargets, hf, ih, List.filterMap_cons]
      simp
    | error e =>
      simp only [scrapeTargets, hf, ih, List.filterMap_cons]
      simp

/-- Claim C4.  In a cycle with both resource types enabled, the batch
contains exactly one resource record per successfully fetched target
(the records are precisely the successful targets' records, and their
number equals the number of successful fetches), while each failed
target contributes its formatted error — containing its identifier —
to the single joined error list; failures never suppress successful
records. -/
theorem C4_partial_failure (lib : TimeLib) (client : Client) (cfg : Config)
    (hdb : cfg.managedDatabases.enabled = true)
    (hlb : cfg.managedLoadBalancers.enabled = true) :
    (scrapeMetrics lib client cfg).1 =
      (resolveManagedDatabaseUUIDs client cfg.managedDatabases).1.filterMap (fun uuid =>
        match client.getManagedDatabaseMetrics uuid cfg.managedDatabases.period with
        | Except.ok resp => some (appendMetricsPayload lib resp resourceTypeManagedDatabase
            uuid cfg.managedDatabases.metrics)
        | Except.error _ => none) ++
      (resolveManagedLoadBalancerUUIDs client cfg.managedLoadBalancers).1.filterMap (fun uuid =>
        match client.getManagedLoadBalancerMetrics uuid cfg.managedLoadBalancers.period with
        | Except.ok resp => some (appendMetricsPayload lib resp resourceTypeManagedLoadBalancer
            uuid cfg.managedLoadBalancers.metrics)
        | Except.error _ => none) ∧
    (∀ uuid ∈ (resolveManagedDatabaseUUIDs client cfg.managedDatabases).1, ∀ e,
      client.getManagedDatabaseMetrics uuid cfg.managedDatabases.period = Except.error e →
      ("managed database " ++ uuid ++ ": " ++ e) ∈ (scrapeMetrics lib client cfg).2) ∧
    (∀ uuid ∈ (resolveManagedLoadBalancerUUIDs client cfg.managedLoadBalancers).1, ∀ e,
      client.getManagedLoadBalancerMetrics uuid cfg.managedLoadBalancers.period =
        Except.error e →
      ("managed load balancer " ++ uuid ++ ": " ++ e) ∈ (scrapeMetrics lib client cfg).2) ∧
    (scrapeMetrics lib client cfg).1.length =
      (resolveManagedDatabaseUUIDs client cfg.managedDatabases).1.countP (fun uuid =>
        match client.getManagedDatabaseMetrics uuid cfg.managedDatabases.period with
        | Except.ok _ => true
        | Except.error _ => false) +
      (resolveManagedLoadBalancerUUIDs client cfg.managedLoadBalancers).1.countP (fun uuid =>
        match client.getManagedLoadBalancerMetrics uuid cfg.managedLoadBalancers.period with
        | Except.ok _ => true
        | Except.error _ => false) := by
  have hscrape : scrapeMetrics lib client cfg =
      (([] : List (ResourceRecord lib.T)) ++ (resolveManagedDatabaseUUIDs client
          cfg.managedDatabases).1.filterMap (fun uuid =>
          match client.getManagedDatabaseMetrics uuid cfg.managedDatabases.period with
          | Except.ok resp => some (appendMetricsPayload lib resp resourceTypeManagedDatabase
              uuid cfg.managedDatabases.metrics)
          | Except.error _ => none) ++
        (([] : List (ResourceRecord lib.T)) ++ (resolveManagedLoadBalancerUUIDs client
          cfg.managedLoadBalancers).1.filterMap (fun uuid =>
          match client.getManagedLoadBalancerMetrics uuid cfg.managedLoadBalancers.period with
          | Except.ok resp => some (appendMetricsPayload lib resp
              resourceTypeManagedLoadBalancer uuid cfg.managedLoadBalancers.metrics)
          | Except.error _ => none)),
        ((match (resolveManagedDatabaseUUIDs client cfg.managedDatabases).2 with
          | some e => [e]
          | none => []) ++ (resolveManagedDatabaseUUIDs client
            cfg.managedDatabases).1.filterMap (fun uuid =>
          match client.getManagedDatabaseMetrics uuid cfg.managedDatabases.period with
          | Except.ok _ => none
          | Except.error e => some ("managed database " ++ uuid ++ ": " ++ e)) ++
        ((match (resolveManagedLoadBalancerUUIDs client cfg.managedLoadBalancers).2 with
          | some e => [e]
          | none => []) ++ (resolveManagedLoadBalancerUUIDs client
            cfg.managedLoadBalancers).1.filterMap (fun uuid =>
          match client.getManagedLoadBalancerMetrics uuid cfg.managedLoadBalancers.period with
          | Except.ok _ => none
          | Except.error e => some ("managed load balancer " ++ uuid ++ ": " ++ e))))) := by
    unfold scrapeMetrics
    rw [hdb, hlb]
    simp only [if_true, reduceIte]
    rw [scrapeTargets_spec, scrapeTargets_spec]
    simp [List.append_assoc]
  refine ⟨?_, ?_, ?_, ?_⟩
  · rw [hscrape]
    simp
  · intro uuid hmem e hf
    rw [hscrape]
    refine List.mem_append_left _ (List.mem_append_right _ ?_)
    rw [List.mem_filterMap]
    exact ⟨uuid, hmem, by rw [hf]⟩
  · intro uuid hmem e hf
    rw [hscrape]
    refine List.mem_append_right _ (List.mem_append_right _ ?_)
    rw [List.mem_filterMap]
    exact ⟨uuid, hmem, by rw [hf]⟩
  · rw [hscrape]
    simp only [List.nil_append, List.length_append]
    congr 1
    · rw [length_filterMap_isSome, ← List.countP_eq_length_filter]
      apply List.countP_congr
      intro uuid _
      cases client.getManagedDatabaseMetrics uuid cfg.managedDatabases.period <;> simp
    · rw [length_filterMap_isSome, ← List.countP_eq_length_filter]
      apply List.countP_congr
      intro uuid _
      cases client.getManagedLoadBalancerMetrics uuid cfg.managedLoadBalancers.period <;> simp

/-- Claim C4 witness: with one succeeding and one failing database
target, the batch keeps the successful record and the error list names
the failed identifier. -/
theorem C4_partial_failure_witness :
    ("managed database " ++ "db-fail" ++ ": " ++ "boom") ∈
      (scrapeMetrics intTimeLib sampleClient
        { sampleConfig with managedLoadBalancers :=
            { sampleLbConfig with enabled := true } }).2 :=
  (C4_partial_failure intTimeLib sampleClient
      { sampleConfig with managedLoadBalancers := { sampleLbConfig with enabled := true } }
      rfl rfl).2.1 "db-fail" (by decide) "boom" rfl

theorem assocSet_ne_nil {α : Type} (l : List (String × α)) (k : String) (v : α) :
    assocSet l k v ≠ [] := by
  cases l with
  | nil => simp [assocSet]
  | cons kv rest =>
    unfold assocSet
    by_cases h : kv.1 = k <;> simp [h]

theorem addMetric_ne_nil (lib : TimeLib) (buckets : List (String × SeriesBucket lib.T))
    (metricKey series : String) (value : Frac) (ts : lib.T) :
    addMetric lib buckets metricKey series value ts ≠ [] := by
  unfold addMetric
  cases assocGet buckets metricKey with
  | none => simp
  | some bucket => exact assocSet_ne_nil _ _ _

theorem foldl_nil_iff {α β : Type} (g : List β → α → List β) (cnt : α → Nat)
    (hg : ∀ bs x, g bs x = [] ↔ bs = [] ∧ cnt x = 0) :
    ∀ (l : List α) (bs : List β), l.foldl g bs = [] ↔ bs = [] ∧ ∀ x ∈ l, cnt x = 0 := by
  intro l
  induction l with
  | nil =>
    intro bs
    simp
  | cons x rest ih =>
    intro bs
    rw [List.foldl_cons, ih, hg]
    constructor
    · rintro ⟨⟨hbs, hx⟩, hrest⟩
      refine ⟨hbs, fun y hy => ?_⟩
      rcases List.mem_cons.mp hy with rfl | hy
      · exact hx
      · exact hrest y hy
    · rintro ⟨hbs, hall⟩
      exact ⟨⟨hbs, hall x (List.mem_cons_self _ _)⟩,
        fun y hy => hall y (List.mem_cons_of_mem _ hy)⟩

theorem objNumericCount_eq_zero_iff {fields : List (String × GoValue)} :
    objNumericCount fields = 0 ↔ ∀ kv ∈ fields, (toFloat64 kv.2).isSome = false := by
  unfold objNumericCount
  rw [List.length_eq_zero, List.filter_eq_nil_iff]
  constructor
  · intro h kv hkv
    have := h kv hkv
    simpa using this
  · intro h kv hkv
    simp [h kv hkv]

theorem processObject_eq_nil_iff (lib : TimeLib) (keyStem series : String)
    (fields : List (String × GoValue)) (buckets : List (String × SeriesBucket lib.T)) :
    processObject lib keyStem series fields buckets = [] ↔
      buckets = [] ∧ objNumericCount fields = 0 := by
  unfold processObject
  rw [foldl_nil_iff _ (fun kv => if (toFloat64 kv.2).isSome then 1 else 0), objNumericCount_eq_zero_iff]
  · constructor
    · rintro ⟨hbs, hall⟩
      refine ⟨hbs, fun kv hkv => ?_⟩
      have := hall kv hkv
      by_cases hs : (toFloat64 kv.2).isSome
      · simp [hs] at this
      · simpa using hs
    · rintro ⟨hbs, hall⟩
      exact ⟨hbs, fun kv hkv => by simp [hall kv hkv]⟩
  · intro bs kv
    cases hf : toFloat64 kv.2 with
    | none => simp [hf]
    | some v => simp [hf, addMetric_ne_nil]

theorem processFrontend_eq_nil_iff (lib : TimeLib)
    (buckets : List (String × SeriesBucket lib.T)) (entry : Nat × GoValue) :
    processFrontend lib buckets entry = [] ↔
      buckets = [] ∧ frontendNumericCount entry = 0 := by
  unfold processFrontend frontendNumericCount
  cases entry.2 with
  | obj fields => exact processObject_eq_nil_iff _ _ _ _ _
  | null => simp
  | boolean b => simp
  | str s => simp
  | num s => simp
  | float q => simp
  | arr xs => simp

theorem processMember_eq_nil_iff (lib : TimeLib) (series : String)
    (buckets : List (String × SeriesBucket lib.T)) (entry : Nat × GoValue) :
    processMember lib series buckets entry = [] ↔
      buckets = [] ∧ memberNumericCount entry = 0 := by
  unfold processMember memberNumericCount
  cases entry.2 with
  | obj fields => exact processObject_eq_nil_iff _ _ _ _ _
  | null => simp
  | boolean b => simp
  | str s => simp
  | num s => simp
  | float q => simp
  | arr xs => simp

theorem processBackend_eq_nil_iff (lib : TimeLib)
    (buckets : List (String × SeriesBucket lib.T)) (entry : Nat × GoValue) :
    processBackend lib buckets entry = [] ↔
      buckets = [] ∧ backendNumericCount entry = 0 := by
  unfold processBackend backendNumericCount
  cases entry.2 with
  | obj fields =>
    rw [foldl_nil_iff _ memberNumericCount (processMember_eq_nil_iff lib _),
      processObject_eq_nil_iff]
    rw [Nat.add_eq_zero_iff, List.sum_eq_zero_iff]
    constructor
    · rintro ⟨⟨hbs, hobj⟩, hall⟩
      refine ⟨hbs, hobj, fun n hn => ?_⟩
      rw [List.mem_map] at hn
      obtain ⟨e, he, rfl⟩ := hn
      exact hall e he
    · rintro ⟨hbs, hobj, hall⟩
      exact ⟨⟨hbs, hobj⟩, fun e he => hall _ (List.mem_map_of_mem _ he)⟩
  | null => simp
  | boolean b => simp
  | str s => simp
  | num s => simp
  | float q => simp
  | arr xs => simp

theorem snapshotBuckets_eq_nil_iff (lib : TimeLib) (root : List (String × GoValue)) :
    snapshotBuckets lib root = [] ↔
      snapshotNumericFieldCount (GoValue.obj root) = 0 := by
  unfold snapshotBuckets snapshotNumericFieldCount
  rw [foldl_nil_iff _ backendNumericCount (processBackend_eq_nil_iff lib),
    foldl_nil_iff _ frontendNumericCount (processFrontend_eq_nil_iff lib),
    Nat.add_eq_zero_iff, List.sum_eq_zero_iff, List.sum_eq_zero_iff]
  constructor
  · rintro ⟨⟨_, hf⟩, hb⟩
    constructor
    · intro n hn
      rw [List.mem_map] at hn
      obtain ⟨e, he, rfl⟩ := hn
      exact hf e he
    · intro n hn
      rw [List.mem_map] at hn
      obtain ⟨e, he, rfl⟩ := hn
      exact hb e he
  · rintro ⟨hf, hb⟩
    exact ⟨⟨rfl, fun e he => hf _ (List.mem_map_of_mem _ he)⟩,
      fun e he => hb _ (List.mem_map_of_mem _ he)⟩

/-- Claim C3.  Snapshot conversion fails exactly when zero numeric-valued
fields are discovered across the whole snapshot (a non-object payload
counting as zero fields), and a successful conversion never returns an
empty response. -/
theorem C3_conversion_error_iff_no_numeric (lib : TimeLib) (payload : GoValue) :
    ((∃ e, convertLoadBalancerSnapshotToMetricsResponse lib payload = Except.error e) ↔
      snapshotNumericFieldCount payload = 0) ∧
    (∀ resp, convertLoadBalancerSnapshotToMetricsResponse lib payload = Except.ok resp →
      resp ≠ []) := by
  cases payload with
  | obj root =>
    have hconv : convertLoadBalancerSnapshotToMetricsResponse lib (GoValue.obj root) =
        (if (snapshotBuckets lib root).isEmpty
          then Except.error "no numeric load balancer metrics discovered"
          else Except.ok ((snapshotBuckets lib root).map (materializeBucket lib))) := rfl
    rw [hconv]
    by_cases h : (snapshotBuckets lib root).isEmpty
    · have hnil : snapshotBuckets lib root = [] := by simpa using h
      rw [if_pos h]
      constructor
      · simp [← snapshotBuckets_eq_nil_iff lib root, hnil]
      · intro resp hresp
        cases hresp
    · have hnil : ¬ snapshotBuckets lib root = [] := by simpa using h
      rw [if_neg h]
      constructor
      · simp only [reduceCtorEq, exists_const, false_iff]
        rw [← snapshotBuckets_eq_nil_iff lib root]
        exact hnil
      · rintro resp hresp
        cases hresp
        simpa using hnil
  | null => exact ⟨by simp [convertLoadBalancerSnapshotToMetricsResponse,
      snapshotNumericFieldCount], by intro resp h; cases h⟩
  | boolean b => exact ⟨by simp [convertLoadBalancerSnapshotToMetricsResponse,
      snapshotNumericFieldCount], by intro resp h; cases h⟩
  | str s => exact ⟨by simp [convertLoadBalancerSnapshotToMetricsResponse,
      snapshotNumericFieldCount], by intro resp h; cases h⟩
  | num s => exact ⟨by simp [convertLoadBalancerSnapshotToMetricsResponse,
      snapshotNumericFieldCount], by intro resp h; cases h⟩
  | float q => exact ⟨by simp [convertLoadBalancerSnapshotToMetricsResponse,
      snapshotNumericFieldCount], by intro resp h; cases h⟩
  | arr xs => exact ⟨by simp [convertLoadBalancerSnapshotToMetricsResponse,
      snapshotNumericFieldCount], by intro resp h; cases h⟩

/-- Claim C3 witness: a bare-string payload (zero numeric fields) makes
the conversion fail. -/
theorem C3_conversion_error_iff_no_numeric_witness :
    ∃ e, convertLoadBalancerSnapshotToMetricsResponse intTimeLib (GoValue.str "x") =
      Except.error e :=
  (C3_conversion_error_iff_no_numeric intTimeLib (GoValue.str "x")).1.mpr rfl

/-- Claim C10.  Despite the Go implementation accumulating into maps, the
materialized metrics have a canonical column order: in every entry of a
successful conversion the first column is the synthetic `"time"`
column and the remaining column labels are sorted ascending (the
converter sorts the series names before building the columns), and each
entry has exactly one row; in this pure embedding equal payloads with
equal fallback fetch times therefore produce identical responses. -/
theorem C10_sorted_columns (lib : TimeLib) (payload : GoValue) (resp : MetricsResponse)
    (hok : convertLoadBalancerSnapshotToMetricsResponse lib payload = Except.ok resp) :
    ∀ metricKey item, (metricKey, item) ∈ resp →
      (item.data.cols.map MetricsColumn.label).head? = some "time" ∧
      List.Sorted (· ≤ ·) ((item.data.cols.map MetricsColumn.label).tail) ∧
      item.data.rows.length = 1 := by
  cases payload with
  | obj root =>
    have hconv : convertLoadBalancerSnapshotToMetricsResponse lib (GoValue.obj root) =
        (if (snapshotBuckets lib root).isEmpty
          then Except.error "no numeric load balancer metrics discovered"
          else Except.ok ((snapshotBuckets lib root).map (materializeBucket lib))) := rfl
    rw [hconv] at hok
    by_cases h : (snapshotBuckets lib root).isEmpty
    · rw [if_pos h] at hok
      cases hok
    · rw [if_neg h] at hok
      cases hok
      intro metricKey item hmem
      rw [List.mem_map] at hmem
      obtain ⟨kb, _, heq⟩ := hmem
      have hitem : item = (materializeBucket lib kb).2 := by rw [heq]
      have hcols : item.data.cols = MetricsColumn.mk "time" "date" ::
          (sortStrings (kb.2.values.map Prod.fst)).map (fun s => MetricsColumn.mk s "number") := by
        rw [hitem]
        rfl
      have hrows : item.data.rows.length = 1 := by
        rw [hitem]
        rfl
      refine ⟨?_, ?_, hrows⟩
      · rw [hcols]
        rfl
      · rw [hcols]
        simp only [List.map_cons, List.tail_cons, List.map_map]
        have hid : (MetricsColumn.label ∘ fun s => MetricsColumn.mk s "number") = id := rfl
        rw [hid, List.map_id]
        exact sortStrings_sorted _
  | null => simp [convertLoadBalancerSnapshotToMetricsResponse] at hok
  | boolean b => simp [convertLoadBalancerSnapshotToMetricsResponse] at hok
  | str s => simp [convertLoadBalancerSnapshotToMetricsResponse] at hok
  | num s => simp [convertLoadBalancerSnapshotToMetricsResponse] at hok
  | float q => simp [convertLoadBalancerSnapshotToMetricsResponse] at hok
  | arr xs => simp [convertLoadBalancerSnapshotToMetricsResponse] at hok

/-- Claim C10 witness: the sample snapshot converts successfully and its
single metric has the `"time"` column first, sorted series columns and
one row. -/
theorem C10_sorted_columns_witness :
    ((sampleSnapshotResp.headD ("", ⟨⟨[], []⟩, ⟨""⟩⟩)).2.data.cols.map
        MetricsColumn.label).head? = some "time" ∧
    List.Sorted (· ≤ ·)
      (((sampleSnapshotResp.headD ("", ⟨⟨[], []⟩, ⟨""⟩⟩)).2.data.cols.map
        MetricsColumn.label).tail) ∧
    (sampleSnapshotResp.headD ("", ⟨⟨[], []⟩, ⟨""⟩⟩)).2.data.rows.length = 1 :=
  C10_sorted_columns intTimeLib sampleSnapshot sampleSnapshotResp rfl
    "frontend.total_http_requests" (sampleSnapshotResp.headD ("", ⟨⟨[], []⟩, ⟨""⟩⟩)).2
    (List.mem_cons_self _ _)

end Upcloud
